import Mathlib

/-!
Shallow embedding of the aedes-americas raster-harmonization pipeline
(notebook data-processing/01-raster-data-processing.ipynb and config.yml).

Pixel samples are rationals; the canonical no-data value of the
configuration is -9999.  A pixel under a destination cell is modelled as
Option: none is a no-data sample, some q a valid sample.  Resampling a
source window into one destination pixel is modelled on the list of
source pixels whose footprint falls under that destination pixel.
-/

namespace AedesAmericas

/-! ### Definitions: windows and resampling -/

/-- the consistent nodata value of config.yml -/
def nodataValue : ℚ := -9999

/-- a source pixel under a destination cell: none is no-data -/
abbrev Pix := Option ℚ

/-- number of valid (non-no-data) pixels in a window -/
def validCount (w : List Pix) : ℕ := (w.filterMap id).length

/-- sum of the valid pixel values in a window -/
def validSum (w : List Pix) : ℚ := (w.filterMap id).sum

/-- gdal.Warp with resampleAlg GRA_Average and srcNodata set: the
no-data-aware average of the valid source pixels under a destination
pixel, no-data when no valid pixel contributes -/
def averageResample (w : List Pix) : Pix :=
  if validCount w = 0 then none else some (validSum w / validCount w)

/-- otbcli ManageNoData mode buildmask: 1 for a valid pixel, 0 for no-data -/
def maskPix (p : Pix) : ℚ := if p.isSome then 1 else 0

/-- the binary validity mask of a source window; every mask pixel is valid -/
def maskWindow (w : List Pix) : List Pix := w.map (fun p => some (maskPix p))

/-- the fraction of valid source sub-pixels under a destination pixel,
obtained by average-resampling the binary validity mask -/
def validFraction (w : List Pix) : ℚ := (averageResample (maskWindow w)).getD 0

/-- Modelled from the spec: the extensive-measure combination step is
absent from the truncated notebook (section 1.4 only states the formula
average population * (% valid cells * 100)).  Destination value =
avg * validFraction * cellsPerWindow, no-data when the validity fraction
is zero. -/
def extensiveReproj (w : List Pix) : Pix :=
  match averageResample w with
  | none => none
  | some avg =>
      if validFraction w = 0 then none else some (avg * validFraction w * w.length)

/-- Modelled from the spec: the MultiScaleAggregator extensive rule, the
per-grid-size resample loop being truncated in the notebook.  Destination
value = sum of valid pixels scaled by windowSize / validCount, no-data
when no pixel is valid. -/
def extensiveWindowAgg (w : List Pix) : Pix :=
  if validCount w = 0 then none else
    some (validSum w * ((w.length : ℚ) / validCount w))

/-- an unbounded raster grid: the pixel at row i, column j -/
abbrev Grid := ℕ → ℕ → Pix

/-- the k-by-k block of base pixels under destination pixel (i, j), row-major -/
def window (r : Grid) (k i j : ℕ) : List Pix :=
  (List.range (k * k)).map (fun t => r (k * i + t / k) (k * j + t % k))

/-- Modelled from the spec: intensive aggregation by an integer factor k,
destination value = mean of valid pixels of the k-by-k window -/
def intensiveAgg (k : ℕ) (r : Grid) : Grid :=
  fun i j => averageResample (window r k i j)

/-- Modelled from the spec: extensive aggregation by an integer factor k -/
def extensiveAgg (k : ℕ) (r : Grid) : Grid :=
  fun i j => extensiveWindowAgg (window r k i j)

/-- serializing one destination pixel: a no-data pixel is written as the
canonical no-data value -/
def writePixel (p : Pix) : ℚ := p.getD nodataValue

/-- a uniform fully-valid source grid of value 100 -/
def uniformGrid100 : Grid := fun _ _ => some 100

/-- a 4-by-4 base raster whose four 2-by-2 quadrants carry different
numbers of valid pixels: the top-left quadrant has one valid pixel of
value 0, the top-right quadrant four valid pixels of value 4, and the
bottom quadrants are entirely no-data -/
def stepGrid : Grid := fun i j =>
  if i ≤ 1 ∧ j ≤ 1 then (if i = 0 ∧ j = 0 then some 0 else none)
  else if i ≤ 1 ∧ j ≤ 3 then some 4
  else none

/-! ### Definitions: tiles and mosaicking -/

/-- a raster tile of one source dataset on the shared native integer grid:
an origin, a pixel footprint, and its samples -/
structure Tile where
  x0 : ℤ
  y0 : ℤ
  width : ℕ
  height : ℕ
  px : ℤ → ℤ → ℚ

/-- whether the point (x, y) lies inside the footprint of the tile -/
def Tile.covers (t : Tile) (x y : ℤ) : Bool :=
  decide (t.x0 ≤ x ∧ x < t.x0 + t.width ∧ t.y0 ≤ y ∧ y < t.y0 + t.height)

/-- an axis-aligned bounding box in grid coordinates -/
structure Extent where
  xmin : ℤ
  xmax : ℤ
  ymin : ℤ
  ymax : ℤ
deriving DecidableEq

/-- the spatial extent of one tile -/
def Tile.extent (t : Tile) : Extent :=
  ⟨t.x0, t.x0 + t.width, t.y0, t.y0 + t.height⟩

/-- the union bounding box of two extents -/
def Extent.union (a b : Extent) : Extent :=
  ⟨min a.xmin b.xmin, max a.xmax b.xmax, min a.ymin b.ymin, max a.ymax b.ymax⟩

/-- whether a point lies inside an extent -/
def Extent.contains (e : Extent) (x y : ℤ) : Bool :=
  decide (e.xmin ≤ x ∧ x < e.xmax ∧ e.ymin ≤ y ∧ y < e.ymax)

/-- one extent lies inside another -/
def subExtent (a b : Extent) : Prop :=
  b.xmin ≤ a.xmin ∧ a.xmax ≤ b.xmax ∧ b.ymin ≤ a.ymin ∧ a.ymax ≤ b.ymax

/-- gdal.BuildVRT: the extent of the virtual mosaic of a nonempty ordered
tile list is the union bounding box of the input extents -/
def mosaicExtent (t : Tile) (ts : List Tile) : Extent :=
  ts.foldl (fun e u => e.union u.extent) t.extent

/-- the last tile in input order whose footprint covers the point: later
tiles paint over earlier ones, with no blending -/
def lastCovering (ts : List Tile) (x y : ℤ) : Option Tile :=
  (ts.filter (fun t => t.covers x y)).getLast?

/-- the mosaic sample at a point: the covering tile value, unresampled;
no-data where no input tile covers the point -/
def mosaicPx (ts : List Tile) (x y : ℤ) : Option ℚ :=
  (lastCovering ts x y).map (fun t => t.px x y)

/-- a 2-by-2 tile at the origin with constant value 1 -/
def tileA : Tile := ⟨0, 0, 2, 2, fun _ _ => 1⟩

/-- a 2-by-2 tile adjacent to tileA on the right, constant value 2 -/
def tileB : Tile := ⟨2, 0, 2, 2, fun _ _ => 2⟩

/-! ### Definitions: no-data normalization and the notebook helpers -/

/-- a raw sample of a source band: GeoTIFF float samples may be NaN -/
inductive Sample where
  | nan : Sample
  | val : ℚ → Sample
deriving DecidableEq

/-- one raster band: a declared no-data sentinel and its samples -/
structure Band where
  nodata : Option Sample
  samples : List Sample
deriving DecidableEq

/-- otbcli ManageNoData, mode changevalue with newv -9999 and usenan true:
a sample matching the declared sentinel, or a NaN sample, becomes the
canonical no-data value; every other sample is untouched -/
def normalizeSample (nd : Option Sample) (p : Sample) : Sample :=
  if p = Sample.nan ∨ nd = some p then Sample.val nodataValue else p

/-- normalizing one band: rewrite its samples and record the canonical
value as the band no-data marker -/
def normalizeBand (b : Band) : Band :=
  { nodata := some (Sample.val nodataValue),
    samples := b.samples.map (normalizeSample b.nodata) }

/-- normalizing every band of a tile -/
def normalizeTile (t : List Band) : List Band := t.map normalizeBand

/-- the gdal dataset opened by the update_nodata helper -/
structure GdalRaster where
  bands : List Band
deriving DecidableEq

/-- python runtime errors raised by the notebook code -/
inductive PyErr where
  | keyError : String → PyErr
  | nameError : String → PyErr
deriving DecidableEq

/-- the update_nodata helper of notebook section 0.2, body semantics with
the nodata argument supplied: sets the no-data marker of every band and
returns True; it performs no validation of band count or band shapes -/
def update_nodata (r : GdalRaster) (nodata : ℚ) : Except PyErr (GdalRaster × Bool) :=
  Except.ok
    ({ bands := r.bands.map (fun b => { b with nodata := some (Sample.val nodata) }) },
     true)

/-- a yaml configuration value -/
inductive ConfigVal where
  | str : String → ConfigVal
  | num : ℤ → ConfigVal
  | numList : List ℤ → ConfigVal
  | strPairs : List (String × String) → ConfigVal
deriving DecidableEq

/-- config.yml of the repository as a key-value map -/
def configEntries : List (String × ConfigVal) :=
  [("data-dir", ConfigVal.str "/external/aedes-americas/data-raw/"),
   ("data-mx-in", ConfigVal.str "/external/aedes-americas/data-mx-in/"),
   ("data-mx-out", ConfigVal.str "/external/aedes-americas/data-mx-out/"),
   ("epsg", ConfigVal.num 54009),
   ("grid-size", ConfigVal.numList [1000, 5000, 10000, 50000, 100000]),
   ("bounds", ConfigVal.numList [-11864000, -6477000, -2010000, 3962000]),
   ("nodata", ConfigVal.num (-9999)),
   ("prefix", ConfigVal.strPairs
      [("leaf_area", "lai"), ("livestock", "cow"), ("population", "pop"),
       ("precipitation", "pcp"), ("temperature", "lst"), ("tree_cover", "tc")])]

/-- python dict subscript on the configuration: KeyError on a missing key -/
def configSubscript (k : String) : Except PyErr ConfigVal :=
  match configEntries.lookup k with
  | some v => Except.ok v
  | none => Except.error (PyErr.keyError k)

/-- executing the def statement of update_nodata: python evaluates the
default-argument expression, the config subscript at key nodataata, at
definition time -/
def defineUpdateNodata : Except PyErr ConfigVal := configSubscript "nodataata"

/-! ### Definitions: output layout and the mask loop -/

/-- the python format directive of width six with zero padding -/
def zeroPad6 (n : ℕ) : String :=
  let s := toString n
  String.mk (List.replicate (6 - s.length) '0') ++ s

/-- the per-grid-size directory name of section 0.1 -/
def gridDirName (gs : ℕ) : String := zeroPad6 gs ++ "-m"

/-- the measures named in config.yml -/
inductive MeasureKey where
  | leaf_area
  | livestock
  | population
  | precipitation
  | temperature
  | tree_cover
deriving DecidableEq

/-- the configured output code of each measure -/
def measureCode : MeasureKey → String
  | MeasureKey.leaf_area => "lai"
  | MeasureKey.livestock => "cow"
  | MeasureKey.population => "pop"
  | MeasureKey.precipitation => "pcp"
  | MeasureKey.temperature => "lst"
  | MeasureKey.tree_cover => "tc"

/-- the fixed gdal creation options of the notebook -/
def gdalCreationOptions : List String := ["COMPRESS=DEFLATE", "TILED=YES"]

/-- the configured output grid sizes in meters -/
def gridSizes : List ℕ := [1000, 5000, 10000, 50000, 100000]

/-- Modelled from the spec: the GridWriter output location
cellSizeDirectory/measureCode.format; the per-grid-size writing loop is
truncated in the notebook, while the directory naming and the code
mapping come from the notebook and config.yml -/
def writerPath (gs : ℕ) (m : MeasureKey) (fmt : String) : String :=
  gridDirName gs ++ "/" ++ measureCode m ++ "." ++ fmt

/-- one statement of the mask-construction loop body: the name it
references and the file it writes when it executes -/
structure LoopStmt where
  uses : String
  writes : Option String

/-- the names the notebook defines before the mask loop runs; the name
masking is never among them, only bandMath and manageNoData are created -/
def definedNames : List String :=
  ["os", "gdal", "glob", "yaml", "np", "otb", "bandMath", "manageNoData",
   "otb_creation_options", "gdal_creation_options", "config", "key",
   "raw_paths", "nd_paths", "vrt_path", "vrt", "warp_options", "average_path",
   "input_path", "output_path"]

/-- the statements of the mask loop body for one input path, in program
order: the output-path format, four manageNoData parameter calls, the
reference to the name masking, the ExecuteAndWriteOutput call that writes
the mask file, and five ClearValue calls -/
def maskLoopBody (p : String) : List LoopStmt :=
  [⟨"otb_creation_options", none⟩,
   ⟨"manageNoData", none⟩, ⟨"manageNoData", none⟩, ⟨"manageNoData", none⟩,
   ⟨"manageNoData", none⟩,
   ⟨"masking", none⟩,
   ⟨"manageNoData", some (p ++ "-mask.tif")⟩,
   ⟨"manageNoData", none⟩, ⟨"manageNoData", none⟩, ⟨"manageNoData", none⟩,
   ⟨"manageNoData", none⟩, ⟨"manageNoData", none⟩]

/-- running statements in order: a reference to an undefined name raises
NameError and stops execution; a write statement that executes records
its output file -/
def runStmts : List LoopStmt → List String × Option PyErr
  | [] => ([], none)
  | s :: rest =>
      if s.uses ∈ definedNames then
        let r := runStmts rest
        (s.writes.toList ++ r.1, r.2)
      else ([], some (PyErr.nameError s.uses))

/-- the mask loop over the sorted raw paths: the first raised error aborts
the whole loop -/
def runMaskLoop : List String → List String × Option PyErr
  | [] => ([], none)
  | p :: ps =>
      match runStmts (maskLoopBody p) with
      | (fs, some e) => (fs, some e)
      | (fs, none) =>
          let r := runMaskLoop ps
          (fs ++ r.1, r.2)

/-! ### Helper lemmas -/

theorem validCount_nil : validCount [] = 0 := rfl

theorem validSum_nil : validSum [] = 0 := rfl

theorem validCount_cons (a : Pix) (l : List Pix) :
    validCount (a :: l) = (if a.isSome then 1 else 0) + validCount l := by
  cases a <;> simp [validCount, List.filterMap_cons, Nat.add_comm]

theorem validSum_cons (a : Pix) (l : List Pix) :
    validSum (a :: l) = a.getD 0 + validSum l := by
  cases a <;> simp [validSum, List.filterMap_cons]

theorem maskWindow_cons (a : Pix) (l : List Pix) :
    maskWindow (a :: l) = some (maskPix a) :: maskWindow l := rfl

theorem validCount_maskWindow (w : List Pix) :
    validCount (maskWindow w) = w.length := by
  simp [validCount, maskWindow, List.filterMap_map, Function.comp]

theorem validSum_maskWindow (w : List Pix) :
    validSum (maskWindow w) = validCount w := by
  induction w with
  | nil => rfl
  | cons a l ih =>
      cases a <;>
        simp [maskWindow_cons, validSum_cons, validCount_cons, maskPix, ih]

theorem validFraction_eq (w : List Pix) (h : w ≠ []) :
    validFraction w = (validCount w : ℚ) / w.length := by
  have hlen : w.length ≠ 0 := by simpa using h
  simp [validFraction, averageResample, validCount_maskWindow,
    validSum_maskWindow, hlen]

theorem validCount_le_length (w : List Pix) : validCount w ≤ w.length := by
  simpa [validCount] using List.length_filterMap_le id w

theorem window_replicate (r : Grid) (v : ℚ) (hr : ∀ i j, r i j = some v)
    (k i j : ℕ) : window r k i j = List.replicate (k * k) (some v) := by
  simp only [window]
  rw [List.eq_replicate_iff]
  constructor
  · simp
  · intro b hb
    obtain ⟨t, _, rfl⟩ := List.mem_map.mp hb
    exact hr _ _

theorem validCount_replicate_some (n : ℕ) (v : ℚ) :
    validCount (List.replicate n (some v)) = n := by
  induction n with
  | zero => rfl
  | succ m ih => simp [List.replicate_succ, validCount_cons, ih, Nat.add_comm]

theorem validSum_replicate_some (n : ℕ) (v : ℚ) :
    validSum (List.replicate n (some v)) = n * v := by
  induction n with
  | zero => simp [validSum_nil]
  | succ m ih =>
      simp [List.replicate_succ, validSum_cons, ih]
      ring

theorem window_two (c : Grid) (a b : ℕ) :
    window c 2 a b =
      [c (2 * a) (2 * b), c (2 * a) (2 * b + 1),
       c (2 * a + 1) (2 * b), c (2 * a + 1) (2 * b + 1)] := rfl

theorem window_two_length (c : Grid) (a b : ℕ) :
    (window c 2 a b).length = 4 := rfl

theorem window_four_length (r : Grid) (i j : ℕ) :
    (window r 4 i j).length = 16 := rfl

theorem window_four (r : Grid) (i j : ℕ) :
    window r 4 i j =
      [r (4 * i) (4 * j), r (4 * i) (4 * j + 1),
       r (4 * i) (4 * j + 2), r (4 * i) (4 * j + 3),
       r (4 * i + 1) (4 * j), r (4 * i + 1) (4 * j + 1),
       r (4 * i + 1) (4 * j + 2), r (4 * i + 1) (4 * j + 3),
       r (4 * i + 2) (4 * j), r (4 * i + 2) (4 * j + 1),
       r (4 * i + 2) (4 * j + 2), r (4 * i + 2) (4 * j + 3),
       r (4 * i + 3) (4 * j), r (4 * i + 3) (4 * j + 1),
       r (4 * i + 3) (4 * j + 2), r (4 * i + 3) (4 * j + 3)] := rfl

theorem validSum_window_four_split (r : Grid) (i j : ℕ) :
    validSum (window r 4 i j)
      = validSum (window r 2 (2 * i) (2 * j))
      + validSum (window r 2 (2 * i) (2 * j + 1))
      + validSum (window r 2 (2 * i + 1) (2 * j))
      + validSum (window r 2 (2 * i + 1) (2 * j + 1)) := by
  have ei0 : 2 * (2 * i) = 4 * i := by ring
  have ei1 : 2 * (2 * i) + 1 = 4 * i + 1 := by ring
  have ei2 : 2 * (2 * i + 1) = 4 * i + 2 := by ring
  have ei3 : 2 * (2 * i + 1) + 1 = 4 * i + 3 := by ring
  have ej0 : 2 * (2 * j) = 4 * j := by ring
  have ej1 : 2 * (2 * j) + 1 = 4 * j + 1 := by ring
  have ej2 : 2 * (2 * j + 1) = 4 * j + 2 := by ring
  have ej3 : 2 * (2 * j + 1) + 1 = 4 * j + 3 := by ring
  simp only [window_four, window_two, ei0, ei1, ei2, ei3, ej0, ej1, ej2, ej3,
    validSum_cons, validSum_nil]
  ring

theorem validCount_window_four_split (r : Grid) (i j : ℕ) :
    validCount (window r 4 i j)
      = validCount (window r 2 (2 * i) (2 * j))
      + validCount (window r 2 (2 * i) (2 * j + 1))
      + validCount (window r 2 (2 * i + 1) (2 * j))
      + validCount (window r 2 (2 * i + 1) (2 * j + 1)) := by
  have ei0 : 2 * (2 * i) = 4 * i := by ring
  have ei1 : 2 * (2 * i) + 1 = 4 * i + 1 := by ring
  have ei2 : 2 * (2 * i + 1) = 4 * i + 2 := by ring
  have ei3 : 2 * (2 * i + 1) + 1 = 4 * i + 3 := by ring
  have ej0 : 2 * (2 * j) = 4 * j := by ring
  have ej1 : 2 * (2 * j) + 1 = 4 * j + 1 := by ring
  have ej2 : 2 * (2 * j + 1) = 4 * j + 2 := by ring
  have ej3 : 2 * (2 * j + 1) + 1 = 4 * j + 3 := by ring
  simp only [window_four, window_two, ei0, ei1, ei2, ei3, ej0, ej1, ej2, ej3,
    validCount_cons, validCount_nil]
  ring

theorem intensiveAgg_apply (k : ℕ) (r : Grid) (a b : ℕ) :
    intensiveAgg k r a b = averageResample (window r k a b) := rfl

theorem extensiveAgg_apply (k : ℕ) (r : Grid) (a b : ℕ) :
    extensiveAgg k r a b = extensiveWindowAgg (window r k a b) := rfl

/-! ### Claim theorems -/

/-- C1: for every destination pixel whose source window holds at least one
valid pixel, the two-pass extensive output equals
avg * validFraction * windowSize, where avg is the no-data-aware average
of the valid source values and validFraction is validCount / windowSize;
this product moreover recovers the sum of the valid source values. -/
theorem extensiveReproj_eq_avg_mul_validFraction (w : List Pix)
    (h : 0 < validCount w) :
    extensiveReproj w =
      some ((validSum w / validCount w) * ((validCount w : ℚ) / w.length)
        * w.length) ∧
    validFraction w = (validCount w : ℚ) / w.length ∧
    extensiveReproj w = some (validSum w) := by
  have hvc : validCount w ≠ 0 := h.ne'
  have hne : w ≠ [] := by
    intro hw
    rw [hw] at h
    simp [validCount_nil] at h
  have hlen : w.length ≠ 0 := by simpa using hne
  have hvf := validFraction_eq w hne
  have hvfne : validFraction w ≠ 0 := by
    rw [hvf]
    positivity
  have havg : averageResample w = some (validSum w / validCount w) := by
    simp [averageResample, hvc]
  have hmain : extensiveReproj w =
      some ((validSum w / validCount w) * validFraction w * w.length) := by
    simp [extensiveReproj, havg, hvfne]
  refine ⟨by rw [hmain, hvf], hvf, ?_⟩
  rw [hmain, hvf]
  congr 1
  have hvcq : (validCount w : ℚ) ≠ 0 := Nat.cast_ne_zero.mpr hvc
  have hlenq : (w.length : ℚ) ≠ 0 := Nat.cast_ne_zero.mpr hlen
  field_simp

/-- C1 witness: a window with 3 of 4 valid pixels of value 100 yields
average 100, validFraction 3/4, and scaled value 100 * (3/4) * 4 = 300. -/
theorem extensiveReproj_three_of_four_witness :
    0 < validCount [some 100, some 100, some 100, (none : Pix)] ∧
    extensiveReproj [some 100, some 100, some 100, (none : Pix)] = some 300 := by
  have h := extensiveReproj_eq_avg_mul_validFraction
    [some 100, some 100, some 100, (none : Pix)] (by decide)
  refine ⟨by decide, ?_⟩
  rw [h.2.2]
  norm_num [validSum, List.filterMap]

/-- C2: on a uniform fully-valid source grid of value v, intensive
(area-weighted average) reprojection yields v at every destination pixel,
and extensive reprojection yields v * windowSize. -/
theorem intensive_uniform_preserved (r : Grid) (v : ℚ) (k : ℕ)
    (hk : 0 < k) (hr : ∀ i j, r i j = some v) (i j : ℕ) :
    intensiveAgg k r i j = some v ∧
    extensiveReproj (window r k i j) = some (v * (k * k : ℕ)) := by
  have hw := window_replicate r v hr k i j
  have hkk : (0 : ℕ) < k * k := Nat.mul_pos hk hk
  have hvc : validCount (window r k i j) = k * k := by
    rw [hw, validCount_replicate_some]
  have hvs : validSum (window r k i j) = (k * k : ℕ) * v := by
    rw [hw, validSum_replicate_some]
  constructor
  · have : intensiveAgg k r i j =
        averageResample (window r k i j) := rfl
    rw [this, averageResample, hvc, hvs]
    rw [if_neg hkk.ne']
    congr 1
    have : ((k * k : ℕ) : ℚ) ≠ 0 := Nat.cast_ne_zero.mpr hkk.ne'
    field_simp
  · have h := extensiveReproj_eq_avg_mul_validFraction (window r k i j)
      (by rw [hvc]; exact hkk)
    rw [h.2.2, hvs]
    congr 1
    ring

/-- C2 witness: the all-100 source grid reprojected with 2-by-2 windows
gives 100 per destination pixel intensively and 400 extensively, at each
of the four destination pixels of the 2-by-2 destination grid. -/
theorem intensive_uniform_preserved_witness :
    (intensiveAgg 2 uniformGrid100 0 0 = some 100 ∧
      extensiveReproj (window uniformGrid100 2 0 0) = some 400) ∧
    (intensiveAgg 2 uniformGrid100 1 1 = some 100 ∧
      extensiveReproj (window uniformGrid100 2 1 1) = some 400) := by
  have h00 := intensive_uniform_preserved uniformGrid100 100 2 (by decide)
    (fun _ _ => rfl) 0 0
  have h11 := intensive_uniform_preserved uniformGrid100 100 2 (by decide)
    (fun _ _ => rfl) 1 1
  norm_num at h00 h11
  exact ⟨h00, h11⟩

/-- C4: a destination pixel with zero valid contributing source pixels has
validity fraction zero, is no-data after every resampling mode, and is
serialized as the canonical no-data value -9999 — never zero and never a
valid sample. -/
theorem nodata_written_when_no_valid (w : List Pix) (hne : w ≠ [])
    (h : validCount w = 0) :
    validFraction w = 0 ∧
    averageResample w = none ∧
    extensiveReproj w = none ∧
    extensiveWindowAgg w = none ∧
    writePixel (extensiveReproj w) = nodataValue ∧
    nodataValue = -9999 ∧ nodataValue ≠ 0 := by
  have hvf : validFraction w = 0 := by
    rw [validFraction_eq w hne, h]
    simp
  refine ⟨hvf, ?_, ?_, ?_, ?_, rfl, by norm_num [nodataValue]⟩
  · simp [averageResample, h]
  · simp [extensiveReproj, averageResample, h]
  · simp [extensiveWindowAgg, h]
  · simp [extensiveReproj, averageResample, h, writePixel]

/-- C4 witness: a 2-by-2 window of no-data pixels is written as -9999. -/
theorem nodata_written_when_no_valid_witness :
    validFraction [none, none, none, (none : Pix)] = 0 ∧
    writePixel (extensiveReproj [none, none, none, (none : Pix)]) = -9999 := by
  have h := nodata_written_when_no_valid [none, none, none, (none : Pix)]
    (by decide) (by decide)
  exact ⟨h.1, (h.2.2.2.2.1).trans h.2.2.2.2.2.1⟩


/-- C3 counterexample: on stepGrid, whose 2-by-2 quadrants carry unequal
numbers of valid pixels, aggregating by 2x twice differs from aggregating
directly by 4x at destination pixel (0, 0), for the intensive measure
(2 versus 16/5) and for the extensive measure (32 versus 256/5). -/
theorem twoStep_ne_direct_on_stepGrid :
    (intensiveAgg 2 (intensiveAgg 2 stepGrid) 0 0 = some 2 ∧
     intensiveAgg 4 stepGrid 0 0 = some (16 / 5) ∧
     extensiveAgg 2 (extensiveAgg 2 stepGrid) 0 0 = some 32 ∧
     extensiveAgg 4 stepGrid 0 0 = some (256 / 5)) ∧
    intensiveAgg 2 (intensiveAgg 2 stepGrid) 0 0 ≠ intensiveAgg 4 stepGrid 0 0 ∧
    extensiveAgg 2 (extensiveAgg 2 stepGrid) 0 0 ≠ extensiveAgg 4 stepGrid 0 0 := by
  have h1 : intensiveAgg 2 (intensiveAgg 2 stepGrid) 0 0 = some 2 := by
    norm_num [intensiveAgg, window_two, stepGrid, averageResample,
      validCount_cons, validCount_nil, validSum_cons, validSum_nil]
  have h2 : intensiveAgg 4 stepGrid 0 0 = some (16 / 5) := by
    norm_num [intensiveAgg, window_four, stepGrid, averageResample,
      validCount_cons, validCount_nil, validSum_cons, validSum_nil]
  have h3 : extensiveAgg 2 (extensiveAgg 2 stepGrid) 0 0 = some 32 := by
    norm_num [extensiveAgg, window_two, stepGrid, extensiveWindowAgg,
      validCount_cons, validCount_nil, validSum_cons, validSum_nil]
  have h4 : extensiveAgg 4 stepGrid 0 0 = some (256 / 5) := by
    norm_num [extensiveAgg, window_four, stepGrid, extensiveWindowAgg,
      validCount_cons, validCount_nil, validSum_cons, validSum_nil]
  refine ⟨⟨h1, h2, h3, h4⟩, ?_, ?_⟩
  · rw [h1, h2]
    intro hq
    rw [Option.some.injEq] at hq
    norm_num at hq
  · rw [h3, h4]
    intro hq
    rw [Option.some.injEq] at hq
    norm_num at hq

/-- C3 amended: two 2x aggregation steps agree with one direct 4x step at a
destination pixel — including the no-data pattern — provided the four
2-by-2 sub-windows of its 4-by-4 base window contain the same number of
valid pixels (in particular under full validity); with unequal valid
counts the two results can differ, for both measures. -/
theorem twoStep_eq_direct_of_uniform_validCount (r : Grid) (i j : ℕ) (c : ℕ)
    (h00 : validCount (window r 2 (2 * i) (2 * j)) = c)
    (h01 : validCount (window r 2 (2 * i) (2 * j + 1)) = c)
    (h10 : validCount (window r 2 (2 * i + 1) (2 * j)) = c)
    (h11 : validCount (window r 2 (2 * i + 1) (2 * j + 1)) = c) :
    intensiveAgg 2 (intensiveAgg 2 r) i j = intensiveAgg 4 r i j ∧
    extensiveAgg 2 (extensiveAgg 2 r) i j = extensiveAgg 4 r i j := by
  have hcnt : validCount (window r 4 i j) = 4 * c := by
    rw [validCount_window_four_split, h00, h01, h10, h11]
    ring
  have hsum := validSum_window_four_split r i j
  rcases Nat.eq_zero_or_pos c with hc | hc
  · subst hc
    have e00 : averageResample (window r 2 (2 * i) (2 * j)) = none := by
      simp [averageResample, h00]
    have e01 : averageResample (window r 2 (2 * i) (2 * j + 1)) = none := by
      simp [averageResample, h01]
    have e10 : averageResample (window r 2 (2 * i + 1) (2 * j)) = none := by
      simp [averageResample, h10]
    have e11 : averageResample (window r 2 (2 * i + 1) (2 * j + 1)) = none := by
      simp [averageResample, h11]
    have f00 : extensiveWindowAgg (window r 2 (2 * i) (2 * j)) = none := by
      simp [extensiveWindowAgg, h00]
    have f01 : extensiveWindowAgg (window r 2 (2 * i) (2 * j + 1)) = none := by
      simp [extensiveWindowAgg, h01]
    have f10 : extensiveWindowAgg (window r 2 (2 * i + 1) (2 * j)) = none := by
      simp [extensiveWindowAgg, h10]
    have f11 : extensiveWindowAgg (window r 2 (2 * i + 1) (2 * j + 1)) = none := by
      simp [extensiveWindowAgg, h11]
    constructor
    · rw [intensiveAgg_apply, intensiveAgg_apply, window_two]
      simp only [intensiveAgg_apply]
      rw [e00, e01, e10, e11]
      simp [averageResample, hcnt, validCount_cons, validCount_nil]
    · rw [extensiveAgg_apply, extensiveAgg_apply, window_two]
      simp only [extensiveAgg_apply]
      rw [f00, f01, f10, f11]
      simp [extensiveWindowAgg, hcnt, validCount_cons, validCount_nil]
  · have hcne : c ≠ 0 := hc.ne'
    have hcq : (c : ℚ) ≠ 0 := Nat.cast_ne_zero.mpr hcne
    have e00 : averageResample (window r 2 (2 * i) (2 * j)) =
        some (validSum (window r 2 (2 * i) (2 * j)) / c) := by
      simp [averageResample, h00, hcne]
    have e01 : averageResample (window r 2 (2 * i) (2 * j + 1)) =
        some (validSum (window r 2 (2 * i) (2 * j + 1)) / c) := by
      simp [averageResample, h01, hcne]
    have e10 : averageResample (window r 2 (2 * i + 1) (2 * j)) =
        some (validSum (window r 2 (2 * i + 1) (2 * j)) / c) := by
      simp [averageResample, h10, hcne]
    have e11 : averageResample (window r 2 (2 * i + 1) (2 * j + 1)) =
        some (validSum (window r 2 (2 * i + 1) (2 * j + 1)) / c) := by
      simp [averageResample, h11, hcne]
    have f00 : extensiveWindowAgg (window r 2 (2 * i) (2 * j)) =
        some (validSum (window r 2 (2 * i) (2 * j)) * (4 / (c : ℚ))) := by
      simp [extensiveWindowAgg, h00, hcne, window_two_length]
    have f01 : extensiveWindowAgg (window r 2 (2 * i) (2 * j + 1)) =
        some (validSum (window r 2 (2 * i) (2 * j + 1)) * (4 / (c : ℚ))) := by
      simp [extensiveWindowAgg, h01, hcne, window_two_length]
    have f10 : extensiveWindowAgg (window r 2 (2 * i + 1) (2 * j)) =
        some (validSum (window r 2 (2 * i + 1) (2 * j)) * (4 / (c : ℚ))) := by
      simp [extensiveWindowAgg, h10, hcne, window_two_length]
    have f11 : extensiveWindowAgg (window r 2 (2 * i + 1) (2 * j + 1)) =
        some (validSum (window r 2 (2 * i + 1) (2 * j + 1)) * (4 / (c : ℚ))) := by
      simp [extensiveWindowAgg, h11, hcne, window_two_length]
    constructor
    · rw [intensiveAgg_apply, intensiveAgg_apply, window_two]
      simp only [intensiveAgg_apply]
      rw [e00, e01, e10, e11]
      simp [averageResample, hcnt, hsum, hcne, validCount_cons, validCount_nil,
        validSum_cons, validSum_nil]
      field_simp
      ring
    · rw [extensiveAgg_apply, extensiveAgg_apply, window_two]
      simp only [extensiveAgg_apply]
      rw [f00, f01, f10, f11]
      simp [extensiveWindowAgg, hcnt, hsum, hcne, window_four_length,
        validCount_cons, validCount_nil, validSum_cons, validSum_nil]
      field_simp
      ring

/-- C3 witness: on the uniform fully-valid grid every 2-by-2 sub-window has
4 valid pixels, and the two-step and direct aggregations agree at (0, 0). -/
theorem twoStep_eq_direct_of_uniform_validCount_witness :
    validCount (window uniformGrid100 2 (2 * 0) (2 * 0)) = 4 ∧
    intensiveAgg 2 (intensiveAgg 2 uniformGrid100) 0 0 =
      intensiveAgg 4 uniformGrid100 0 0 ∧
    extensiveAgg 2 (extensiveAgg 2 uniformGrid100) 0 0 =
      extensiveAgg 4 uniformGrid100 0 0 := by
  have h := twoStep_eq_direct_of_uniform_validCount uniformGrid100 0 0 4
    (by decide) (by decide) (by decide) (by decide)
  exact ⟨by decide, h.1, h.2⟩


theorem subExtent_refl (a : Extent) : subExtent a a :=
  ⟨le_refl _, le_refl _, le_refl _, le_refl _⟩

theorem subExtent_union_left (a b : Extent) : subExtent a (a.union b) :=
  ⟨min_le_left _ _, le_max_left _ _, min_le_left _ _, le_max_left _ _⟩

theorem subExtent_union_right (a b : Extent) : subExtent b (a.union b) :=
  ⟨min_le_right _ _, le_max_right _ _, min_le_right _ _, le_max_right _ _⟩

theorem subExtent_trans {a b c : Extent} (h1 : subExtent a b)
    (h2 : subExtent b c) : subExtent a c := by
  obtain ⟨p1, p2, p3, p4⟩ := h1
  obtain ⟨q1, q2, q3, q4⟩ := h2
  exact ⟨le_trans q1 p1, le_trans p2 q2, le_trans q3 p3, le_trans p4 q4⟩

theorem union_subExtent {a b c : Extent} (h1 : subExtent a c)
    (h2 : subExtent b c) : subExtent (a.union b) c := by
  obtain ⟨p1, p2, p3, p4⟩ := h1
  obtain ⟨q1, q2, q3, q4⟩ := h2
  exact ⟨le_min p1 q1, max_le p2 q2, le_min p3 q3, max_le p4 q4⟩

theorem subExtent_foldl_acc (ts : List Tile) (e : Extent) :
    subExtent e (ts.foldl (fun a u => a.union u.extent) e) := by
  induction ts generalizing e with
  | nil => exact subExtent_refl e
  | cons t ts ih =>
      exact subExtent_trans (subExtent_union_left e t.extent) (ih _)

theorem subExtent_foldl_mem :
    ∀ (ts : List Tile) (e : Extent) (u : Tile), u ∈ ts →
      subExtent u.extent (ts.foldl (fun a v => a.union v.extent) e)
  | [], _, _, hu => absurd hu (List.not_mem_nil _)
  | t :: ts, e, u, hu => by
      rcases List.mem_cons.mp hu with rfl | hmem
      · exact subExtent_trans (subExtent_union_right e u.extent)
          (subExtent_foldl_acc ts _)
      · exact subExtent_foldl_mem ts _ u hmem

theorem foldl_subExtent :
    ∀ (ts : List Tile) (e b : Extent), subExtent e b →
      (∀ u ∈ ts, subExtent u.extent b) →
      subExtent (ts.foldl (fun a v => a.union v.extent) e) b
  | [], _, _, he, _ => he
  | t :: ts, e, b, he, hts => by
      exact foldl_subExtent ts _ b
        (union_subExtent he (hts t (List.mem_cons_self t ts)))
        (fun u hu => hts u (List.mem_cons_of_mem t hu))

theorem covers_eq_extent_contains (t : Tile) (x y : ℤ) :
    t.covers x y = t.extent.contains x y := rfl

theorem contains_of_subExtent {a b : Extent} (h : subExtent a b) (x y : ℤ)
    (hx : a.contains x y = true) : b.contains x y = true := by
  simp [Extent.contains] at hx ⊢
  obtain ⟨p1, p2, p3, p4⟩ := h
  omega

theorem lastCovering_spec (ts : List Tile) (x y : ℤ) (u : Tile)
    (h : lastCovering ts x y = some u) : u ∈ ts ∧ u.covers x y = true := by
  have hmem : u ∈ ts.filter (fun t => t.covers x y) := by
    obtain ⟨hne, heq⟩ := List.mem_getLast?_eq_getLast (l := ts.filter _)
      (x := u) h
    rw [heq]
    exact List.getLast_mem hne
  exact List.mem_filter.mp hmem

theorem lastCovering_isSome (ts : List Tile) (x y : ℤ) (u : Tile)
    (hu : u ∈ ts) (hc : u.covers x y = true) :
    (lastCovering ts x y).isSome = true := by
  rw [lastCovering, Option.isSome_iff_ne_none]
  intro hnone
  rw [List.getLast?_eq_none_iff] at hnone
  have : u ∈ ts.filter (fun t => t.covers x y) := List.mem_filter.mpr ⟨hu, hc⟩
  rw [hnone] at this
  cases this

theorem normalizeSample_canonical_id (q : Sample) (hq : q ≠ Sample.nan) :
    normalizeSample (some (Sample.val nodataValue)) q = q := by
  rw [normalizeSample]
  split_ifs with h
  · rcases h with h1 | h2
    · exact absurd h1 hq
    · exact Option.some.inj h2
  · rfl

theorem normalizeSample_ne_nan (nd : Option Sample) (p : Sample) :
    normalizeSample nd p ≠ Sample.nan := by
  rw [normalizeSample]
  split_ifs with h
  · simp
  · push_neg at h
    exact h.1

theorem normalizeSample_idem (nd : Option Sample) (p : Sample) :
    normalizeSample (some (Sample.val nodataValue)) (normalizeSample nd p)
      = normalizeSample nd p :=
  normalizeSample_canonical_id _ (normalizeSample_ne_nan nd p)

theorem normalizeBand_idem (b : Band) :
    normalizeBand (normalizeBand b) = normalizeBand b := by
  unfold normalizeBand
  simp only [List.map_map]
  congr 1
  apply List.map_congr_left
  intro p _
  exact normalizeSample_idem b.nodata p

/-- C5: the mosaic of a nonempty ordered tile list has the union bounding
box of the inputs as its extent (it contains every input extent and is the
least such box), every covered point is within it, the sample at a covered
point is taken unresampled from the single last input tile covering the
point, and points covered by no tile are no-data — no gap inside covered
ground, no double counting on overlaps. -/
theorem mosaic_union_extent_last_wins (t : Tile) (ts : List Tile) :
    (∀ u ∈ t :: ts, subExtent u.extent (mosaicExtent t ts)) ∧
    (∀ b : Extent, (∀ u ∈ t :: ts, subExtent u.extent b) →
      subExtent (mosaicExtent t ts) b) ∧
    (∀ x y : ℤ, ∀ u ∈ t :: ts, u.covers x y = true →
      (mosaicExtent t ts).contains x y = true) ∧
    (∀ x y : ℤ, ∀ u, lastCovering (t :: ts) x y = some u →
      u ∈ t :: ts ∧ u.covers x y = true ∧
      mosaicPx (t :: ts) x y = some (u.px x y)) ∧
    (∀ x y : ℤ, (∃ u ∈ t :: ts, u.covers x y = true) →
      ∃ u, lastCovering (t :: ts) x y = some u) ∧
    (∀ x y : ℤ, (∀ u ∈ t :: ts, u.covers x y = false) →
      mosaicPx (t :: ts) x y = none) := by
  have hin : ∀ u ∈ t :: ts, subExtent u.extent (mosaicExtent t ts) := by
    intro u hu
    rcases List.mem_cons.mp hu with rfl | hmem
    · exact subExtent_foldl_acc ts u.extent
    · exact subExtent_foldl_mem ts t.extent u hmem
  refine ⟨hin, ?_, ?_, ?_, ?_, ?_⟩
  · intro b hb
    exact foldl_subExtent ts t.extent b (hb t (List.mem_cons_self t ts))
      (fun u hu => hb u (List.mem_cons_of_mem t hu))
  · intro x y u hu hc
    exact contains_of_subExtent (hin u hu) x y
      (covers_eq_extent_contains u x y ▸ hc)
  · intro x y u h
    obtain ⟨hm, hc⟩ := lastCovering_spec (t :: ts) x y u h
    exact ⟨hm, hc, by rw [mosaicPx, h]; rfl⟩
  · intro x y ⟨u, hu, hc⟩
    have := lastCovering_isSome (t :: ts) x y u hu hc
    exact Option.isSome_iff_exists.mp this
  · intro x y hall
    rw [mosaicPx, lastCovering]
    have : (t :: ts).filter (fun v => v.covers x y) = [] := by
      rw [List.filter_eq_nil_iff]
      intro u hu
      simp [hall u hu]
    rw [this]
    rfl

/-- C5 witness: two adjacent non-overlapping 2-by-2 tiles mosaic to the
union bounding box 0..4 by 0..2; the point (3, 1) takes its value from
tileB and (1, 1) from tileA. -/
theorem mosaic_union_extent_last_wins_witness :
    mosaicExtent tileA [tileB] = ⟨0, 4, 0, 2⟩ ∧
    mosaicPx [tileA, tileB] 3 1 = some (tileB.px 3 1) ∧
    mosaicPx [tileA, tileB] 1 1 = some (tileA.px 1 1) ∧
    subExtent tileA.extent (mosaicExtent tileA [tileB]) ∧
    (mosaicExtent tileA [tileB]).contains 3 1 = true := by
  have h := mosaic_union_extent_last_wins tileA [tileB]
  refine ⟨rfl, ?_, ?_, ?_, ?_⟩
  · exact (h.2.2.2.1 3 1 tileB rfl).2.2
  · exact (h.2.2.2.1 1 1 tileA rfl).2.2
  · exact h.1 tileA (List.mem_cons_self _ _)
  · exact h.2.2.1 3 1 tileB (by simp) rfl

/-- C6: no-data normalization is idempotent: re-normalizing an already
normalized tile changes neither the samples nor the per-band no-data
metadata. -/
theorem normalizeTile_idempotent (t : List Band) :
    normalizeTile (normalizeTile t) = normalizeTile t := by
  unfold normalizeTile
  rw [List.map_map]
  apply List.map_congr_left
  intro b _
  exact normalizeBand_idem b

/-- C7 counterexample: on a raster with zero bands the update_nodata
helper completes successfully, returning True and touching nothing,
instead of failing; no InvalidRasterError exists anywhere in the code. -/
theorem update_nodata_zero_bands_succeeds :
    update_nodata ⟨[]⟩ (-9999) = Except.ok (⟨[]⟩, true) := rfl

/-- C7 amended: the update_nodata helper performs no validation at all:
for every input raster — zero bands included — it completes successfully
returning True, rewriting only the no-data marker of each band and leaving
every sample untouched. -/
theorem update_nodata_no_validation (r : GdalRaster) (nd : ℚ) :
    ∃ res : GdalRaster, update_nodata r nd = Except.ok (res, true) ∧
      res.bands.map Band.samples = r.bands.map Band.samples ∧
      ∀ b ∈ res.bands, b.nodata = some (Sample.val nd) := by
  refine ⟨_, rfl, ?_, ?_⟩
  · simp [List.map_map, Function.comp]
  · intro b hb
    simp only [List.mem_map] at hb
    obtain ⟨a, _, rfl⟩ := hb
    rfl

/-- C8: the finished raster for a configured grid size and a measure is
addressed cellSizeDirectory/measureCode.format, the directory being the
zero-padded six-digit cell size plus the -m suffix, the file name being
the configured output code of the measure, with the fixed lossless
DEFLATE compression among the creation options. -/
theorem writer_layout (gs : ℕ) (m : MeasureKey) (h : gs ∈ gridSizes) :
    writerPath gs m "tif"
      = gridDirName gs ++ "/" ++ measureCode m ++ "." ++ "tif" ∧
    gridDirName gs = zeroPad6 gs ++ "-m" ∧
    (zeroPad6 gs).length = 6 ∧
    "COMPRESS=DEFLATE" ∈ gdalCreationOptions := by
  refine ⟨rfl, rfl, ?_, by decide⟩
  simp only [gridSizes, List.mem_cons, List.not_mem_nil, or_false] at h
  rcases h with rfl | rfl | rfl | rfl | rfl <;> decide

/-- C8 witness: the population raster at grid size 1000 goes to
001000-m/pop.tif. -/
theorem writer_layout_witness :
    1000 ∈ gridSizes ∧
    writerPath 1000 MeasureKey.population "tif" = "001000-m/pop.tif" ∧
    (zeroPad6 1000).length = 6 := by
  have h := writer_layout 1000 MeasureKey.population (by decide)
  exact ⟨by decide, by decide, h.2.2.1⟩

/-- C9: evaluating the def statement of update_nodata raises KeyError: the
default-argument expression reads the configuration at key nodataata,
which is absent — the configured key is nodata, with value -9999 — so no
call with the default argument is ever possible. -/
theorem update_nodata_default_keyError :
    defineUpdateNodata = Except.error (PyErr.keyError "nodataata") ∧
    configEntries.lookup "nodataata" = none ∧
    configSubscript "nodata" = Except.ok (ConfigVal.num (-9999)) :=
  ⟨rfl, rfl, rfl⟩

/-- C10: for every nonempty list of input paths the mask loop writes no
mask file and stops with NameError on the undefined name masking, which is
not among the names the notebook defines; so no binary validity mask is
ever produced. -/
theorem mask_loop_raises_nameError (ps : List String) (h : ps ≠ []) :
    (runMaskLoop ps).1 = [] ∧
    (runMaskLoop ps).2 = some (PyErr.nameError "masking") ∧
    "masking" ∉ definedNames := by
  cases ps with
  | nil => exact absurd rfl h
  | cons p rest => exact ⟨rfl, rfl, by decide⟩

/-- C10 witness: on a single concrete input path the loop writes nothing
and raises NameError for masking. -/
theorem mask_loop_raises_nameError_witness :
    (["LACR-pop-density-a.tif"] : List String) ≠ [] ∧
    runMaskLoop ["LACR-pop-density-a.tif"]
      = ([], some (PyErr.nameError "masking")) := by
  have h := mask_loop_raises_nameError ["LACR-pop-density-a.tif"] (by simp)
  refine ⟨by simp, ?_⟩
  rw [Prod.ext_iff]
  exact ⟨h.1, h.2.1⟩

end AedesAmericas
